import Mathlib

/-!
A verification development for the karpenter provisioning core: the
provisional-node admission logic (`pkg/scheduling`, `Node.Add`) and the AWS
instance provider (`pkg/cloudprovider/aws/instance.go`).

Pure Go functions are translated to Lean functions; mutation of the node in
`Node.Add` is made explicit by returning the (possibly updated) node next to
the optional error.  Kubernetes resource quantities are modelled as `Nat`
(they are non-negative, arbitrary precision in the source); maps
(`v1.ResourceList`, requirement sets, zonal subnet maps) are modelled as
association lists whose lookup returns the first binding.  Go `error`
values are modelled as `Option String` (`none` = nil) or small inductive
types; the `panic` in `instanceToNode` is modelled as returning `none`.

External effects are made explicit as parameters: the `CreateFleet`
response the provider would return is an input of `launchInstance`, and a
`fleetCalled` flag records whether the code path reaches the network call.
The unavailable-offering cache is modelled by returning the list of
entries written.

Collaborators of the two source files that live in this repository but
outside the provided sources (`v1alpha5.Requirements` operations,
`resources.Merge`, `cloudprovider.FilterInstanceTypes`, named constants)
are modelled from the spec; each such definition carries a doc comment
starting with `Modelled from the spec:`.
-/

namespace Karpenter

/-- Resource quantity table (`v1.ResourceList`): association list from
resource name to a non-negative quantity.  A missing key denotes quantity
zero, as for Go map indexing of `v1.ResourceList`. -/
abbrev ResourceList := List (String × Nat)

/-- First binding for a resource name, mirroring Go map lookup (comma-ok). -/
def rlFind : ResourceList → String → Option Nat
  | [], _ => none
  | (k, v) :: rest, key => if k = key then some v else rlFind rest key

/-- Go map indexing of a `v1.ResourceList`: a missing key reads as zero. -/
def rlGet (q : ResourceList) (k : String) : Nat := (rlFind q k).getD 0

/-- Modelled from the spec: `resources.Merge` — "merge = element-wise sum".
Keys of the left operand keep their position with the right operand's
quantity added; keys only present in the right operand are appended. -/
def rmerge (a b : ResourceList) : ResourceList :=
  a.map (fun kv => (kv.1, kv.2 + rlGet b kv.1)) ++
    b.filter (fun kv => (rlFind a kv.1).isNone)

/-- Requirement set (`v1alpha5.Requirements`): association list from a
constraint key (zone, capacity type, custom label, …) to its allowed value
set.  Modelled from the spec with `In`-style operators (allowed value
sets); a missing key exposes an empty explicit value set, as
`Requirements.Zones()` / `Requirements.CapacityTypes()` do. -/
abbrev Requirements := List (String × List String)

/-- First binding for a requirement key. -/
def reqFind : Requirements → String → Option (List String)
  | [], _ => none
  | (k, vs) :: rest, key => if k = key then some vs else reqFind rest key

/-- Explicit allowed values recorded for a key (empty when the key is
absent). -/
def reqValues (r : Requirements) (k : String) : List String :=
  (reqFind r k).getD []

/-- Membership of a value in the explicit allowed value set of a key
(`sets.String.Has` on the requirement's recorded values). -/
def hasValue (r : Requirements) (k v : String) : Bool :=
  (reqValues r k).contains v

/-- Modelled from the spec: `Requirements.Add` — "merging two sets means,
per key, intersecting (for In-style), producing a strictly narrower or
equal set".  Shared keys are intersected in place; keys only in the added
set are appended. -/
def radd (a b : Requirements) : Requirements :=
  a.map (fun kv =>
    (kv.1, match reqFind b kv.1 with
      | none => kv.2
      | some vs2 => kv.2.filter (fun v => vs2.contains v))) ++
    b.filter (fun kv => (reqFind a kv.1).isNone)

/-- Modelled from the spec: `Requirements.Compatible` — "two requirement
sets are compatible if, for every shared key, the intersection of allowed
values is non-empty". -/
def compatibleReqs (a b : Requirements) : Bool :=
  a.all (fun kv =>
    match reqFind b kv.1 with
    | none => true
    | some vs2 => kv.2.any (fun v => vs2.contains v))

/-- An offering: a (zone, purchase-kind) capacity option of a machine
shape (`cloudprovider.Offering`). -/
structure Offering where
  zone : String
  capacityType : String
deriving DecidableEq, Repr

/-- A machine shape (`cloudprovider.InstanceType`): name, allocatable
resource table, and its offerings. -/
structure InstanceType where
  name : String
  resources : ResourceList
  offerings : List Offering
deriving DecidableEq, Repr

/-- Well-known requirement key for zones (`v1.LabelTopologyZone`). -/
def zoneKey : String := "topology.kubernetes.io/zone"

/-- Well-known requirement key for the purchase kind
(`v1alpha5.LabelCapacityType`). -/
def capacityTypeKey : String := "karpenter.sh/capacity-type"

/-- The spot purchase kind (`v1alpha1.CapacityTypeSpot`). -/
def CapacityTypeSpot : String := "spot"

/-- The on-demand purchase kind (`v1alpha1.CapacityTypeOnDemand`). -/
def CapacityTypeOnDemand : String := "on-demand"

/-- Modelled from the spec: the resource-fit half of the candidate filter —
"shapes that have allocatable resource quantities ≥ the new running total
for every demanded resource". -/
def fits (it : InstanceType) (requests : ResourceList) : Bool :=
  requests.all (fun kv => rlGet requests kv.1 ≤ rlGet it.resources kv.1)

/-- Modelled from the spec: the offering half of the candidate filter —
the shape must "retain at least one offering whose zone is still in the
merged requirement set's allowed zones and whose purchase kind is still
allowed". -/
def hasOffering (it : InstanceType) (r : Requirements) : Bool :=
  it.offerings.any (fun o =>
    hasValue r zoneKey o.zone && hasValue r capacityTypeKey o.capacityType)

/-- Modelled from the spec: `cloudprovider.FilterInstanceTypes` — keeps the
shapes that fit the running resource total and retain a permitted
offering. -/
def FilterInstanceTypes (instanceTypes : List InstanceType)
    (requirements : Requirements) (requests : ResourceList) :
    List InstanceType :=
  instanceTypes.filter (fun it => fits it requests && hasOffering it requirements)

/-- Constraints (`v1alpha5.Constraints` / the AWS `v1alpha1.Constraints`):
only the requirement set is consulted by the modelled code. -/
structure Constraints where
  requirements : Requirements
deriving DecidableEq, Repr

/-- A workload unit (pod), carrying the outputs of the external helpers
`v1alpha5.NewPodRequirements` and `resources.RequestsForPods`. -/
structure Pod where
  requirements : Requirements
  requests : ResourceList
deriving DecidableEq, Repr

/-- The provisional node (`scheduling.Node`): constraints, candidate
machine shapes, admitted pods, and the running resource total. -/
structure Node where
  constraints : Constraints
  instanceTypeOptions : List InstanceType
  pods : List Pod
  requests : ResourceList
deriving DecidableEq, Repr

/-- `scheduling.NewNode`: empty node over a (deep-copied) constraint set,
the daemon-overhead resource total, and the unchanged candidate list. -/
def NewNode (constraints : Constraints) (daemonResources : ResourceList)
    (instanceTypes : List InstanceType) : Node :=
  { constraints := constraints
    instanceTypeOptions := instanceTypes
    pods := []
    requests := daemonResources }

/-- The two admission failures of `Node.Add`. -/
inductive AddErr where
  | incompatibleConstraints
  | noInstanceTypeSatisfiesDemand
deriving DecidableEq, Repr

/-- `scheduling.Node.Add`: admission of one pod.  The Go method mutates the
receiver only on the success path (its four assignments come after both
error returns); here the returned node makes the post-call state explicit
(the receiver itself on both error returns). -/
def Node.Add (n : Node) (pod : Pod) : Option AddErr × Node :=
  if n.pods.length != 0 &&
      !(compatibleReqs n.constraints.requirements pod.requirements) then
    (some .incompatibleConstraints, n)
  else
    let requirements := radd n.constraints.requirements pod.requirements
    let requests := rmerge n.requests pod.requests
    let instanceTypes := FilterInstanceTypes n.instanceTypeOptions requirements requests
    if instanceTypes.length == 0 then
      (some .noInstanceTypeSatisfiesDemand, n)
    else
      (none,
        { constraints := { requirements := requirements }
          instanceTypeOptions := instanceTypes
          pods := n.pods ++ [pod]
          requests := requests })

/-- Sequential admission of a list of pods; `none` as soon as one
admission fails. -/
def addAll : Node → List Pod → Option Node
  | n, [] => some n
  | n, p :: ps =>
    match Node.Add n p with
    | (none, n') => addAll n' ps
    | (some _, _) => none

/-- Both well-known requirement keys are recorded in a requirement set. -/
def KeysOK (r : Requirements) : Prop :=
  (reqFind r zoneKey).isSome = true ∧ (reqFind r capacityTypeKey).isSome = true

/-- An EC2 subnet, with the fields `getOverrides` consults. -/
structure Subnet where
  subnetId : String
  availabilityZone : String
  availableIpAddressCount : Nat
deriving DecidableEq, Repr

/-- A fleet launch-template override
(`ec2.FleetLaunchTemplateOverridesRequest`).  The source stores the
priority as `float64(i)` for a list index `i`; the conversion is exact at
these magnitudes, so the priority is modelled as the index itself. -/
structure OverrideReq where
  instanceType : String
  subnetId : String
  availabilityZone : String
  priority : Option Nat
deriving DecidableEq, Repr

/-- Insertion step for sorting subnets by ascending available address
count (the `sort.Slice` comparator in `getOverrides`). -/
def insertSubnet (s : Subnet) : List Subnet → List Subnet
  | [] => [s]
  | t :: ts =>
    if s.availableIpAddressCount < t.availableIpAddressCount then s :: t :: ts
    else t :: insertSubnet s ts

/-- Sorting of subnets by ascending available address count.  `sort.Slice`
is unstable, so ties are ordered arbitrarily in the source; this model
fixes one order (the spec calls the tie-break arbitrary). -/
def sortSubnets : List Subnet → List Subnet
  | [] => []
  | s :: ss => insertSubnet s (sortSubnets ss)

/-- Go map assignment `m[k] = v` on an association list. -/
def updateAssoc : List (String × Subnet) → String → Subnet → List (String × Subnet)
  | [], k, v => [(k, v)]
  | kv :: rest, k, v => if kv.1 = k then (k, v) :: rest else kv :: updateAssoc rest k v

/-- Go map lookup on the zonal subnet map. -/
def assocFind : List (String × Subnet) → String → Option Subnet
  | [], _ => none
  | kv :: rest, k => if kv.1 = k then some kv.2 else assocFind rest k

/-- The `zonalSubnets` map of `getOverrides`: subnets sorted by ascending
available addresses, then written per availability zone (last write — the
zone's most available subnet — wins). -/
def zonalSubnets (subnets : List Subnet) : List (String × Subnet) :=
  (sortSubnets subnets).foldl (fun m s => updateAssoc m s.availabilityZone s) []

/-- The overrides one shape at loop index `i` contributes in
`getOverrides`: one per offering that matches the selected purchase kind,
an allowed zone, and a resolved subnet; spot overrides carry the shape's
index as priority. -/
def overridesForShape (i : Nat) (it : InstanceType) (zonalS : List (String × Subnet))
    (zones : List String) (capacityType : String) : List OverrideReq :=
  it.offerings.filterMap (fun o =>
    if capacityType != o.capacityType then none
    else if !(zones.contains o.zone) then none
    else
      match assocFind zonalS o.zone with
      | none => none
      | some subnet =>
        some { instanceType := it.name
               subnetId := subnet.subnetId
               availabilityZone := subnet.availabilityZone
               priority := if capacityType == CapacityTypeSpot then some i else none })

/-- The indexed loop of `getOverrides` over the shape list. -/
def overridesFrom (zonalS : List (String × Subnet)) (zones : List String)
    (capacityType : String) : Nat → List InstanceType → List OverrideReq
  | _, [] => []
  | i, it :: rest =>
    overridesForShape i it zonalS zones capacityType ++
      overridesFrom zonalS zones capacityType (i + 1) rest

/-- `InstanceProvider.getOverrides`. -/
def InstanceProvider.getOverrides (instanceTypeOptions : List InstanceType)
    (subnets : List Subnet) (zones : List String) (capacityType : String) :
    List OverrideReq :=
  overridesFrom (zonalSubnets subnets) zones capacityType 0 instanceTypeOptions

/-- `InstanceProvider.getCapacityType`: spot exactly when the requirement
set's recorded capacity types include spot and some shape has a spot
offering in an allowed zone; on-demand otherwise. -/
def InstanceProvider.getCapacityType (constraints : Constraints)
    (instanceTypes : List InstanceType) : String :=
  if (reqValues constraints.requirements capacityTypeKey).contains CapacityTypeSpot then
    if instanceTypes.any (fun it => it.offerings.any (fun o =>
        (reqValues constraints.requirements zoneKey).contains o.zone &&
          o.capacityType == CapacityTypeSpot)) then
      CapacityTypeSpot
    else CapacityTypeOnDemand
  else CapacityTypeOnDemand

/-- One launch-template group of the fleet request
(`ec2.FleetLaunchTemplateConfigRequest`). -/
structure FleetLaunchTemplateConfig where
  launchTemplateName : String
  overrides : List OverrideReq
deriving DecidableEq, Repr

/-- The error message of `getLaunchTemplateConfigs` when no group has
overrides. -/
def noOfferingsMsg : String := "no capacity offerings are currently available given the constraints"

/-- `InstanceProvider.getLaunchTemplateConfigs`.  The launch-template
grouping (`launchTemplateProvider.Get`) and the subnet list
(`subnetProvider.Get`) are external collaborators and appear as inputs;
the Go map iteration order over groups is unspecified, the model uses the
given list order.  Groups with zero overrides are dropped; zero surviving
groups is an error. -/
def InstanceProvider.getLaunchTemplateConfigs
    (launchTemplates : List (String × List InstanceType)) (subnets : List Subnet)
    (zones : List String) (capacityType : String) :
    Except String (List FleetLaunchTemplateConfig) :=
  let configs := launchTemplates.filterMap (fun g =>
    let c : FleetLaunchTemplateConfig :=
      { launchTemplateName := g.1
        overrides := InstanceProvider.getOverrides g.2 subnets zones capacityType }
    if c.overrides.length > 0 then some c else none)
  if configs.length = 0 then Except.error noOfferingsMsg else Except.ok configs

/-- Modelled from the spec: the provider's "insufficient capacity" error
code constant (`InsufficientCapacityErrorCode`, defined outside the given
sources). -/
def InsufficientCapacityErrorCode : String := "InsufficientInstanceCapacity"

/-- A per-override fleet error (`ec2.CreateFleetError`), flattened to the
fields the source reads (`ErrorCode`, `ErrorMessage`, and the override's
instance type and availability zone). -/
structure CreateFleetError where
  errorCode : String
  errorMessage : String
  instanceType : String
  availabilityZone : String
deriving DecidableEq, Repr

/-- One launched-instance group of a fleet response. -/
structure FleetInstance where
  instanceIds : List String
deriving DecidableEq, Repr

/-- A `CreateFleet` response (`ec2.CreateFleetOutput`). -/
structure CreateFleetOutput where
  instances : List FleetInstance
  errors : List CreateFleetError
deriving DecidableEq, Repr

/-- `InstanceProvider.updateUnavailableOfferingsCache`: the (shape, zone,
purchase-kind) entries written to the unavailable-offering cache — one per
error carrying the insufficient-capacity code, in order. -/
def InstanceProvider.updateUnavailableOfferingsCache (errors : List CreateFleetError)
    (capacityType : String) : List (String × String × String) :=
  errors.filterMap (fun e =>
    if e.errorCode == InsufficientCapacityErrorCode then
      some (e.instanceType, e.availabilityZone, capacityType)
    else none)

/-- Insertion-order de-duplication, modelling the `sets.String` of
`combineFleetErrors` (the Go set iterates in unspecified order; the model
fixes insertion order, which no claim depends on). -/
def dedupInsert (l : List String) : List String :=
  l.foldl (fun acc s => if acc.contains s then acc else acc ++ [s]) []

/-- `combineFleetErrors`: de-duplicated (code, message) pairs wrapped into
one message.  The Go `fmt.Errorf` always returns a non-nil error, so the
result type is `String`, not `Option String`. -/
def combineFleetErrors (errors : List CreateFleetError) : String :=
  "with fleet error(s), " ++
    String.intercalate "; "
      (dedupInsert (errors.map (fun e => e.errorCode ++ ": " ++ e.errorMessage)))

/-- The observable outcome of `launchInstance`: Go's `(*string, error)`
pair, plus whether `CreateFleet` was reached and the cache entries
written. -/
structure LaunchAttempt where
  instanceId : Option String
  errMsg : Option String
  fleetCalled : Bool
  cacheWrites : List (String × String × String)
deriving DecidableEq, Repr

/-- The first instance id of a fleet response; `none` exactly when
`len(Instances) == 0 || len(Instances[0].InstanceIds) == 0`. -/
def firstFleetInstanceId (fleetOutput : CreateFleetOutput) : Option String :=
  match fleetOutput.instances with
  | [] => none
  | fi :: _ => fi.instanceIds.head?

/-- `InstanceProvider.launchInstance`.  The fleet response the provider
would return is an input (the call is external); its own transport error
path is not modelled.  Config construction failure returns before the
fleet call (`fleetCalled = false`); after the call the cache is updated on
every path, then a missing instance id yields the combined fleet error. -/
def InstanceProvider.launchInstance (launchTemplates : List (String × List InstanceType))
    (subnets : List Subnet) (constraints : Constraints)
    (instanceTypes : List InstanceType) (fleetOutput : CreateFleetOutput) :
    LaunchAttempt :=
  let capacityType := InstanceProvider.getCapacityType constraints instanceTypes
  match InstanceProvider.getLaunchTemplateConfigs launchTemplates subnets
      (reqValues constraints.requirements zoneKey) capacityType with
  | .error e =>
    { instanceId := none
      errMsg := some ("getting launch template configs, " ++ e)
      fleetCalled := false
      cacheWrites := [] }
  | .ok _ =>
    let writes := InstanceProvider.updateUnavailableOfferingsCache fleetOutput.errors capacityType
    match firstFleetInstanceId fleetOutput with
    | none =>
      { instanceId := none
        errMsg := some (combineFleetErrors fleetOutput.errors)
        fleetCalled := true
        cacheWrites := writes }
    | some id =>
      { instanceId := some id
        errMsg := none
        fleetCalled := true
        cacheWrites := writes }

/-- Modelled from the spec: `MaxInstanceTypes`, the fixed maximum shape
count of the fleet request (the constant is defined outside the given
sources; the spec fixes no number, and no claim depends on the value). -/
def MaxInstanceTypes : Nat := 20

/-- `v1alpha1.ResourceNVIDIAGPU`. -/
def ResourceNVIDIAGPU : String := "nvidia.com/gpu"

/-- `v1alpha1.ResourceAMDGPU`. -/
def ResourceAMDGPU : String := "amd.com/gpu"

/-- `v1alpha1.ResourceAWSNeuron`. -/
def ResourceAWSNeuron : String := "aws.amazon.com/neuron"

/-- A shape with no accelerator resources (the loop body test of
`filterInstanceTypes`: NVIDIA GPU, AMD GPU and Neuron quantities all
zero). -/
def isGenericInstanceType (it : InstanceType) : Bool :=
  rlGet it.resources ResourceAWSNeuron == 0 &&
    rlGet it.resources ResourceAMDGPU == 0 &&
    rlGet it.resources ResourceNVIDIAGPU == 0

/-- `InstanceProvider.filterInstanceTypes`: keep only non-accelerator
shapes when any exist, otherwise return the list unaltered. -/
def InstanceProvider.filterInstanceTypes (instanceTypes : List InstanceType) :
    List InstanceType :=
  let genericInstanceTypes := instanceTypes.filter isGenericInstanceType
  if genericInstanceTypes.length != 0 then genericInstanceTypes else instanceTypes

/-- The candidate list `Create` computes before launching (its first two
statements): the accelerator filter followed by truncation to
`MaxInstanceTypes`.  `Create` passes this same (reassigned) list both to
`launchInstance` and to `instanceToNode`. -/
def InstanceProvider.createCandidateList (instanceTypes : List InstanceType) :
    List InstanceType :=
  let filtered := InstanceProvider.filterInstanceTypes instanceTypes
  if filtered.length > MaxInstanceTypes then filtered.take MaxInstanceTypes else filtered

/-- An instance description (`ec2.Instance`), with the fields the source
reads. -/
structure EC2Instance where
  instanceId : String
  instanceType : String
  privateDnsName : String
  availabilityZone : String
  imageId : String
  architecture : String
  spotInstanceRequestId : Option String
deriving DecidableEq, Repr

/-- The package-level `getCapacityType(instance)` (renamed here to avoid
the provider method of the same Go name): spot exactly when the spot
request id is present. -/
def instanceCapacityType (inst : EC2Instance) : String :=
  if inst.spotInstanceRequestId.isSome then CapacityTypeSpot else CapacityTypeOnDemand

/-- `v1.ResourcePods`. -/
def ResourcePods : String := "pods"

/-- `v1.ResourceCPU`. -/
def ResourceCPU : String := "cpu"

/-- `v1.ResourceMemory`. -/
def ResourceMemory : String := "memory"

/-- `v1.ResourceEphemeralStorage`. -/
def ResourceEphemeralStorage : String := "ephemeral-storage"

/-- The seven resource names `instanceToNode` exports. -/
def nodeResourceNames : List String :=
  [ResourcePods, ResourceCPU, ResourceMemory, ResourceEphemeralStorage,
    ResourceNVIDIAGPU, ResourceAMDGPU, ResourceAWSNeuron]

/-- The resource table `instanceToNode` builds for a matched shape: every
non-zero quantity among the exported resource names (zero quantities are
omitted).  The Go source iterates a map literal in unspecified order; the
model fixes the declaration order. -/
def nodeResources (it : InstanceType) : ResourceList :=
  nodeResourceNames.filterMap (fun rn =>
    if rlGet it.resources rn != 0 then some (rn, rlGet it.resources rn) else none)

/-- Modelled from the spec: the `v1alpha1.AWSToKubeArchitectures` map
(defined outside the given sources); a missing key reads as the empty
string. -/
def awsToKubeArchitecture (arch : String) : String :=
  if arch == "x86_64" then "amd64" else if arch == "arm64" then "arm64" else ""

/-- Go `strings.ToLower` on a character-list level. -/
def goToLower (s : String) : String := String.mk (s.data.map Char.toLower)

/-- The node descriptor `instanceToNode` builds (`v1.Node`, flattened to
the fields the source sets). -/
structure NodeDesc where
  name : String
  labelZone : String
  labelInstanceType : String
  labelCapacityType : String
  providerID : String
  allocatable : ResourceList
  capacity : ResourceList
  architecture : String
  imageId : String
deriving DecidableEq, Repr

/-- `InstanceProvider.instanceToNode`: first shape whose name equals the
description's instance type provides the resource table; no match is the
source's `panic("unrecognized instance type …")`, modelled as `none`.  The
ambient naming convention (`injection.GetOptions`) is the explicit
`useResourceName` flag. -/
def InstanceProvider.instanceToNode (useResourceName : Bool) (inst : EC2Instance)
    (instanceTypes : List InstanceType) : Option NodeDesc :=
  match instanceTypes.find? (fun it => it.name == inst.instanceType) with
  | some instanceType =>
    some { name := if useResourceName then inst.instanceId else goToLower inst.privateDnsName
           labelZone := inst.availabilityZone
           labelInstanceType := inst.instanceType
           labelCapacityType := instanceCapacityType inst
           providerID := "aws:///" ++ inst.availabilityZone ++ "/" ++ inst.instanceId
           allocatable := nodeResources instanceType
           capacity := nodeResources instanceType
           architecture := awsToKubeArchitecture inst.architecture
           imageId := inst.imageId }
  | none => none

/-- Go `strings.Split` on a character-list level: split at every separator,
keeping empty segments (`split "" = [""]`). -/
def splitCharsOn (sep : Char) : List Char → List (List Char)
  | [] => [[]]
  | c :: rest =>
    let r := splitCharsOn sep rest
    if c = sep then [] :: r
    else
      match r with
      | [] => [[c]]
      | s :: ss => (c :: s) :: ss

/-- Go `strings.Split(s, sep)` for a one-character separator. -/
def goSplit (s : String) (sep : Char) : List String :=
  (splitCharsOn sep s.data).map (fun cs => String.mk cs)

/-- `getInstanceID`: the provider identifier's fifth slash-delimited
segment; fewer than five segments is the malformed-identifier error. -/
def getInstanceID (providerID : String) : Except String String :=
  let segs := goSplit providerID '/'
  if segs.length < 5 then Except.error ("parsing instance id " ++ providerID)
  else Except.ok (segs.getD 4 "")

/-- The provider's response to a `TerminateInstances` call (`isNotFound`
classifies the error in the source). -/
inductive TerminateApiResult where
  | success
  | notFound
  | apiError (msg : String)
deriving DecidableEq, Repr

/-- `InstanceProvider.Terminate`, with the termination API response as an
explicit input.  The returned pair is (API call reached, Go error):
malformed identifiers fail before the call; a not-found response is
success. -/
def InstanceProvider.Terminate (providerID : String) (api : TerminateApiResult) :
    Bool × Option String :=
  match getInstanceID providerID with
  | .error e => (false, some ("getting instance ID for node, " ++ e))
  | .ok _ =>
    match api with
    | .success => (true, none)
    | .notFound => (true, none)
    | .apiError m => (true, some ("terminating instance, " ++ m))

/-- Concrete constraints used by witnesses: zone A, on-demand only. -/
def cW : Constraints :=
  { requirements := [(zoneKey, ["A"]), (capacityTypeKey, [CapacityTypeOnDemand])] }

/-- Concrete pod used by witnesses: unconstrained, one cpu. -/
def podW : Pod := { requirements := [], requests := [(ResourceCPU, 1)] }

/-- Concrete shape used by witnesses: 4 cpu, one on-demand offering in
zone A. -/
def itW : InstanceType :=
  { name := "t", resources := [(ResourceCPU, 4)],
    offerings := [{ zone := "A", capacityType := CapacityTypeOnDemand }] }

/-- The node state after admitting `podW` into `NewNode cW [] [itW]`. -/
def nW : Node :=
  { constraints := cW, instanceTypeOptions := [itW], pods := [podW],
    requests := [(ResourceCPU, 1)] }

/-- Concrete spot-flexible constraints used by witnesses. -/
def cSpotW : Constraints :=
  { requirements := [(zoneKey, ["A"]),
      (capacityTypeKey, [CapacityTypeSpot, CapacityTypeOnDemand])] }

/-- Concrete shape with a spot offering in zone A. -/
def itSpotW : InstanceType :=
  { name := "shape1", resources := [(ResourceCPU, 1)],
    offerings := [{ zone := "A", capacityType := CapacityTypeSpot }] }

/-- Concrete accelerator-equipped shape. -/
def itGpuW : InstanceType :=
  { name := "p3", resources := [(ResourceCPU, 1), (ResourceNVIDIAGPU, 1)],
    offerings := [{ zone := "A", capacityType := CapacityTypeOnDemand }] }

/-- Concrete subnet in zone A. -/
def subnetW : Subnet :=
  { subnetId := "subnet-1", availabilityZone := "A", availableIpAddressCount := 10 }

/-- The single override produced from `itSpotW` under spot. -/
def ovW : OverrideReq :=
  { instanceType := "shape1", subnetId := "subnet-1", availabilityZone := "A",
    priority := some 0 }

/-- Concrete launch-template grouping. -/
def ltW : List (String × List InstanceType) := [("lt-1", [itSpotW])]

/-- Concrete insufficient-capacity override error for (shape1, A). -/
def fleetErrW : CreateFleetError :=
  { errorCode := InsufficientCapacityErrorCode
    errorMessage := "no capacity"
    instanceType := "shape1"
    availabilityZone := "A" }

/-- Concrete fleet response: one launched instance and one
insufficient-capacity override error for (shape1, A). -/
def fleetOutW : CreateFleetOutput :=
  { instances := [{ instanceIds := ["i-1"] }], errors := [fleetErrW] }

/-- Concrete fleet response with no instances and no per-override errors. -/
def fleetOutEmptyW : CreateFleetOutput := { instances := [], errors := [] }

/-- A plain (accelerator-free) shape with a numbered name. -/
def mkPlainShape (i : Nat) : InstanceType :=
  { name := "t" ++ Nat.repr i
    resources := [(ResourceCPU, 1)]
    offerings := [{ zone := "A", capacityType := CapacityTypeOnDemand }] }

/-- Twenty-one plain shapes `t0` … `t20`, one more than
`MaxInstanceTypes`. -/
def its21W : List InstanceType := (List.range 21).map mkPlainShape

/-- An instance description whose shape `t20` is in the pre-truncation
candidate list `its21W` but beyond the truncation cut. -/
def instW : EC2Instance :=
  { instanceId := "i-1", instanceType := "t20", privateDnsName := "host1",
    availabilityZone := "A", imageId := "ami-1", architecture := "x86_64",
    spotInstanceRequestId := none }

/-- An instance description matching shape `t0`. -/
def inst0W : EC2Instance :=
  { instanceId := "i-1", instanceType := "t0", privateDnsName := "host1",
    availabilityZone := "A", imageId := "ami-1", architecture := "x86_64",
    spotInstanceRequestId := none }

/-- The node descriptor built for `inst0W` from shape `t0`. -/
def ndW : NodeDesc :=
  { name := "host1", labelZone := "A", labelInstanceType := "t0",
    labelCapacityType := CapacityTypeOnDemand, providerID := "aws:///A/i-1",
    allocatable := [(ResourceCPU, 1)], capacity := [(ResourceCPU, 1)],
    architecture := "amd64", imageId := "ami-1" }

/-! ## Helper lemmas -/

theorem rlFind_append (a b : ResourceList) (k : String) :
    rlFind (a ++ b) k = (rlFind a k).or (rlFind b k) := by
  induction a with
  | nil => simp [rlFind]
  | cons kv rest ih =>
    rcases kv with ⟨k0, v0⟩
    by_cases hk : k0 = k <;> simp [rlFind, hk, ih]

theorem rlFind_map_value (a : ResourceList) (t : String × Nat → Nat) (k : String) :
    rlFind (a.map (fun kv => (kv.1, t kv))) k =
      ((a.find? (fun kv => kv.1 = k)).map t) := by
  induction a with
  | nil => simp [rlFind]
  | cons kv rest ih =>
    by_cases hk : kv.1 = k <;> simp [rlFind, List.find?, hk, ih]

theorem rlFind_eq_find? (a : ResourceList) (k : String) :
    rlFind a k = (a.find? (fun kv => kv.1 = k)).map (fun kv => kv.2) := by
  induction a with
  | nil => simp [rlFind]
  | cons kv rest ih =>
    by_cases hk : kv.1 = k <;> simp [rlFind, List.find?, hk, ih]

theorem rlFind_rmerge_of_some {a : ResourceList} (b : ResourceList) {k : String} {v : Nat}
    (h : rlFind a k = some v) : rlFind (rmerge a b) k = some (v + rlGet b k) := by
  have hf : ∃ kv, a.find? (fun kv => kv.1 = k) = some kv ∧ kv.1 = k ∧ kv.2 = v := by
    rw [rlFind_eq_find?] at h
    rcases hfind : a.find? (fun kv => kv.1 = k) with _ | kv
    · rw [hfind] at h; simp at h
    · refine ⟨kv, hfind, ?_, ?_⟩
      · have := List.find?_some hfind
        simpa using this
      · rw [hfind] at h; simpa using h
  rcases hf with ⟨kv, hfind, hk, hv⟩
  rw [rmerge, rlFind_append, rlFind_map_value, hfind]
  simp [hk, hv]

theorem exists_rlFind_of_mem {a : ResourceList} {kv : String × Nat} (h : kv ∈ a) :
    ∃ w, rlFind a kv.1 = some w := by
  induction a with
  | nil => simp at h
  | cons kv0 rest ih =>
    by_cases hk : kv0.1 = kv.1
    · exact ⟨kv0.2, by simp [rlFind, hk]⟩
    · rcases List.mem_cons.mp h with hEq | hMem
      · exact absurd (by rw [hEq]) hk
      · rcases ih hMem with ⟨w, hw⟩
        exact ⟨w, by simp [rlFind, hk, hw]⟩

theorem mem_of_rlFind {a : ResourceList} {k : String} {v : Nat}
    (h : rlFind a k = some v) : (k, v) ∈ a := by
  induction a with
  | nil => simp [rlFind] at h
  | cons kv0 rest ih =>
    rcases kv0 with ⟨k0, v0⟩
    by_cases hk : k0 = k
    · simp [rlFind, hk] at h
      subst h
      simp [hk]
    · simp only [rlFind, hk, ite_false, if_neg] at h
      exact List.mem_cons_of_mem _ (ih h)

theorem fits_rmerge {it : InstanceType} {a b : ResourceList}
    (h : fits it (rmerge a b) = true) : fits it a = true := by
  simp only [fits, List.all_eq_true, decide_eq_true_eq] at h ⊢
  intro kv hkv
  obtain ⟨w, hw⟩ := exists_rlFind_of_mem hkv
  have hm : rlFind (rmerge a b) kv.1 = some (w + rlGet b kv.1) := rlFind_rmerge_of_some b hw
  have hmem : (kv.1, w + rlGet b kv.1) ∈ rmerge a b := mem_of_rlFind hm
  have hle := h _ hmem
  simp only [rlGet, hm, Option.getD_some] at hle
  simp only [rlGet, hw, Option.getD_some]
  omega

theorem reqFind_append (a b : Requirements) (k : String) :
    reqFind (a ++ b) k = (reqFind a k).or (reqFind b k) := by
  induction a with
  | nil => simp [reqFind]
  | cons kv rest ih =>
    rcases kv with ⟨k0, v0⟩
    by_cases hk : k0 = k <;> simp [reqFind, hk, ih]

theorem reqFind_eq_find? (a : Requirements) (k : String) :
    reqFind a k = (a.find? (fun kv => kv.1 = k)).map (fun kv => kv.2) := by
  induction a with
  | nil => simp [reqFind]
  | cons kv rest ih =>
    by_cases hk : kv.1 = k <;> simp [reqFind, List.find?, hk, ih]

theorem reqFind_map_value (a : Requirements) (t : String × List String → List String)
    (k : String) :
    reqFind (a.map (fun kv => (kv.1, t kv))) k =
      ((a.find? (fun kv => kv.1 = k)).map t) := by
  induction a with
  | nil => simp [reqFind]
  | cons kv rest ih =>
    by_cases hk : kv.1 = k <;> simp [reqFind, List.find?, hk, ih]

theorem reqFind_radd_of_some {a : Requirements} (b : Requirements) {k : String}
    {vs : List String} (h : reqFind a k = some vs) :
    ∃ vs', reqFind (radd a b) k = some vs' ∧
      ∀ v, vs'.contains v = true → vs.contains v = true := by
  have hf : ∃ kv, a.find? (fun kv => kv.1 = k) = some kv ∧ kv.2 = vs := by
    rw [reqFind_eq_find?] at h
    rcases hfind : a.find? (fun kv => kv.1 = k) with _ | kv
    · rw [hfind] at h; simp at h
    · refine ⟨kv, hfind, ?_⟩
      rw [hfind] at h; simpa using h
  rcases hf with ⟨kv, hfind, hv⟩
  rw [radd, reqFind_append, reqFind_map_value, hfind]
  refine ⟨_, rfl, ?_⟩
  intro v hv'
  dsimp only at hv'
  rcases hb : reqFind b kv.1 with _ | vs2
  · rw [hb] at hv'
    simpa [hv] using hv'
  · rw [hb] at hv'
    rw [List.elem_iff, List.mem_filter] at hv'
    rw [← hv, List.elem_iff]
    exact hv'.1

theorem reqFind_radd_isSome {a : Requirements} (b : Requirements) {k : String}
    (h : (reqFind a k).isSome = true) : (reqFind (radd a b) k).isSome = true := by
  rcases hs : reqFind a k with _ | vs
  · rw [hs] at h; simp at h
  · rcases reqFind_radd_of_some b hs with ⟨vs', hvs', _⟩
    simp [hvs']

theorem hasValue_isSome {r : Requirements} {k v : String}
    (h : hasValue r k v = true) : (reqFind r k).isSome = true := by
  rcases hs : reqFind r k with _ | vs
  · rw [hasValue, reqValues, hs] at h
    simp at h
  · rfl

theorem hasValue_radd {a : Requirements} {b : Requirements} {k v : String}
    (h : hasValue (radd a b) k v = true) (hk : (reqFind a k).isSome = true) :
    hasValue a k v = true := by
  rcases hs : reqFind a k with _ | vs
  · rw [hs] at hk; simp at hk
  · rcases reqFind_radd_of_some b hs with ⟨vs', hvs', hsub⟩
    rw [hasValue, reqValues, hvs'] at h
    rw [hasValue, reqValues, hs]
    exact hsub v h

theorem hasOffering_keys {it : InstanceType} {r : Requirements}
    (h : hasOffering it r = true) :
    (reqFind r zoneKey).isSome = true ∧ (reqFind r capacityTypeKey).isSome = true := by
  rw [hasOffering, List.any_eq_true] at h
  rcases h with ⟨o, _, ho⟩
  rw [Bool.and_eq_true] at ho
  exact ⟨hasValue_isSome ho.1, hasValue_isSome ho.2⟩

theorem hasOffering_radd {it : InstanceType} {r pr : Requirements}
    (h : hasOffering it (radd r pr) = true)
    (hz : (reqFind r zoneKey).isSome = true)
    (hc : (reqFind r capacityTypeKey).isSome = true) :
    hasOffering it r = true := by
  rw [hasOffering, List.any_eq_true] at h ⊢
  rcases h with ⟨o, hmem, ho⟩
  rw [Bool.and_eq_true] at ho
  exact ⟨o, hmem, by
    rw [Bool.and_eq_true]
    exact ⟨hasValue_radd ho.1 hz, hasValue_radd ho.2 hc⟩⟩

/-- Narrowing: once the requirement keys for zone and purchase kind are
present, re-filtering an already-filtered candidate list under the merged
(narrower) requirement set and the merged (larger) resource total equals
filtering the unfiltered list. -/
theorem FilterInstanceTypes_idem {L : List InstanceType} {r pr : Requirements}
    {q pq : ResourceList}
    (hz : (reqFind r zoneKey).isSome = true)
    (hc : (reqFind r capacityTypeKey).isSome = true) :
    FilterInstanceTypes (FilterInstanceTypes L r q) (radd r pr) (rmerge q pq) =
      FilterInstanceTypes L (radd r pr) (rmerge q pq) := by
  unfold FilterInstanceTypes
  rw [List.filter_filter]
  apply List.filter_congr
  intro it _
  cases hpq : (fits it (rmerge q pq) && hasOffering it (radd r pr)) with
  | false => simp [hpq]
  | true =>
    rw [Bool.and_eq_true] at hpq
    simp [fits_rmerge hpq.1, hasOffering_radd hpq.2 hz hc, hpq.1, hpq.2]

/-- Any successful admission step preserves the "candidate list is the
original list re-filtered by the cumulative state" invariant. -/
theorem Add_preserves_refilter {L : List InstanceType} {n n' : Node} {p : Pod}
    (hAdd : Node.Add n p = (none, n'))
    (hInv : n.instanceTypeOptions =
      FilterInstanceTypes L n.constraints.requirements n.requests)
    (hK : KeysOK n.constraints.requirements) :
    (n'.instanceTypeOptions =
      FilterInstanceTypes L n'.constraints.requirements n'.requests) ∧
      KeysOK n'.constraints.requirements := by
  unfold Node.Add at hAdd
  split at hAdd
  · simp at hAdd
  · dsimp only at hAdd
    split at hAdd
    · simp at hAdd
    · cases hAdd
      refine ⟨?_, reqFind_radd_isSome _ hK.1, reqFind_radd_isSome _ hK.2⟩
      dsimp only
      rw [hInv, FilterInstanceTypes_idem hK.1 hK.2]

/-- The first successful admission into a fresh node establishes the
invariant (and forces the zone and capacity-type keys to be present, since
some shape passed the offering check). -/
theorem Add_newNode_refilter {c : Constraints} {d : ResourceList}
    {L : List InstanceType} {p : Pod} {n' : Node}
    (hAdd : Node.Add (NewNode c d L) p = (none, n')) :
    (n'.instanceTypeOptions =
      FilterInstanceTypes L n'.constraints.requirements n'.requests) ∧
      KeysOK n'.constraints.requirements := by
  unfold Node.Add at hAdd
  split at hAdd
  · simp at hAdd
  · dsimp only at hAdd
    split at hAdd
    · simp at hAdd
    · rename_i hne
      cases hAdd
      constructor
      · rfl
      · have hnil : FilterInstanceTypes L
            (radd c.requirements p.requirements) (rmerge d p.requests) ≠ [] := by
          intro hnil
          rw [show (NewNode c d L).instanceTypeOptions = L from rfl] at hne
          rw [show (NewNode c d L).constraints.requirements = c.requirements from rfl,
            show (NewNode c d L).requests = d from rfl] at hne
          rw [hnil] at hne
          simp at hne
        rcases List.exists_mem_of_ne_nil _ hnil with ⟨it, hit⟩
        rw [FilterInstanceTypes, List.mem_filter, Bool.and_eq_true] at hit
        exact hasOffering_keys hit.2.2

theorem addAll_inv {L : List InstanceType} (ps : List Pod) :
    ∀ (n n' : Node), addAll n ps = some n' →
      ((n.instanceTypeOptions =
          FilterInstanceTypes L n.constraints.requirements n.requests) ∧
        KeysOK n.constraints.requirements) →
      ((n'.instanceTypeOptions =
          FilterInstanceTypes L n'.constraints.requirements n'.requests) ∧
        KeysOK n'.constraints.requirements) := by
  induction ps with
  | nil =>
    intro n n' h hI
    unfold addAll at h
    cases h
    exact hI
  | cons p ps ih =>
    intro n n' h hI
    unfold addAll at h
    rcases hA : Node.Add n p with ⟨err, n2⟩
    rw [hA] at h
    cases err with
    | some e => simp at h
    | none => exact ih n2 n' h (Add_preserves_refilter hA hI.1 hI.2)

theorem updateCache_eq_filter_map (errors : List CreateFleetError) (capacityType : String) :
    InstanceProvider.updateUnavailableOfferingsCache errors capacityType =
      (errors.filter (fun e => e.errorCode == InsufficientCapacityErrorCode)).map
        (fun e => (e.instanceType, e.availabilityZone, capacityType)) := by
  induction errors with
  | nil => rfl
  | cons e rest ih =>
    unfold InstanceProvider.updateUnavailableOfferingsCache at ih ⊢
    rw [List.filterMap_cons, List.filter_cons]
    cases he : e.errorCode == InsufficientCapacityErrorCode with
    | true => simp only [he, if_pos, List.map_cons, ih, ite_true]
    | false => simp only [he, ite_false, ih, Bool.false_eq_true, if_false]

theorem overridesForShape_fields {i : Nat} {it : InstanceType}
    {zonalS : List (String × Subnet)} {zones : List String} {capacityType : String}
    {ov : OverrideReq} (h : ov ∈ overridesForShape i it zonalS zones capacityType) :
    ov.instanceType = it.name ∧
      ov.priority = (if capacityType == CapacityTypeSpot then some i else none) := by
  rw [overridesForShape] at h
  rcases List.mem_filterMap.mp h with ⟨o, _, hsome⟩
  split at hsome
  · simp at hsome
  · split at hsome
    · simp at hsome
    · split at hsome
      · simp at hsome
      · cases hsome
        exact ⟨rfl, rfl⟩

theorem overridesFrom_spec {zonalS : List (String × Subnet)} {zones : List String}
    {capacityType : String} :
    ∀ (its : List InstanceType) (i : Nat) (ov : OverrideReq),
      ov ∈ overridesFrom zonalS zones capacityType i its →
      ∃ j it, its.get? j = some it ∧ it.name = ov.instanceType ∧
        ov.priority = (if capacityType == CapacityTypeSpot then some (i + j) else none) := by
  intro its
  induction its with
  | nil => intro i ov h; rw [overridesFrom] at h; simp at h
  | cons it rest ih =>
    intro i ov h
    rw [overridesFrom] at h
    rcases List.mem_append.mp h with hHead | hTail
    · rcases overridesForShape_fields hHead with ⟨hname, hprio⟩
      exact ⟨0, it, rfl, hname.symm, by simpa using hprio⟩
    · rcases ih (i + 1) ov hTail with ⟨j, it', hj, hname, hprio⟩
      refine ⟨j + 1, it', by simpa using hj, hname, ?_⟩
      rw [hprio]
      have : i + 1 + j = i + (j + 1) := by omega
      rw [this]

/-! ## Claim theorems -/

/-- C1: a failed admission (either incompatible constraints or no
remaining instance type) leaves every field of the provisional node —
requirement set, resource total, admitted pod list, and candidate shape
list — exactly as it was before the call; no partial mutation is
observable. -/
theorem Node.Add_error_leaves_node_unchanged (n : Node) (pod : Pod) (e : AddErr)
    (h : (Node.Add n pod).1 = some e) : (Node.Add n pod).2 = n := by
  rcases hEq : Node.Add n pod with ⟨err, n2⟩
  rw [hEq] at h
  unfold Node.Add at hEq
  split at hEq
  · cases hEq; rfl
  · dsimp only at hEq
    split at hEq
    · cases hEq; rfl
    · cases hEq; simp at h

/-- Witness for C1 at a concrete failing admission. -/
theorem Node.Add_error_leaves_node_unchanged_witness :
    (Node.Add (NewNode cW [] []) podW).1 = some AddErr.noInstanceTypeSatisfiesDemand ∧
      (Node.Add (NewNode cW [] []) podW).2 = NewNode cW [] [] :=
  ⟨by decide,
    Node.Add_error_leaves_node_unchanged _ _ AddErr.noInstanceTypeSatisfiesDemand (by decide)⟩

/-- C2: after any non-empty sequence of successful admissions starting
from a freshly constructed node, the candidate shape list equals the
original construction-time candidate list filtered by the cumulative
merged requirement set and cumulative resource total of the final node
state. -/
theorem addAll_refilters_original_candidates (c : Constraints) (d : ResourceList)
    (L : List InstanceType) (p : Pod) (ps : List Pod) (n' : Node)
    (h : addAll (NewNode c d L) (p :: ps) = some n') :
    n'.instanceTypeOptions =
      FilterInstanceTypes L n'.constraints.requirements n'.requests := by
  unfold addAll at h
  rcases hA : Node.Add (NewNode c d L) p with ⟨err, n1⟩
  rw [hA] at h
  cases err with
  | some e => simp at h
  | none => exact (addAll_inv ps n1 n' h (Add_newNode_refilter hA)).1

/-- Witness for C2 on a concrete successful admission sequence. -/
theorem addAll_refilters_original_candidates_witness :
    addAll (NewNode cW [] [itW]) [podW] = some nW ∧
      nW.instanceTypeOptions =
        FilterInstanceTypes [itW] nW.constraints.requirements nW.requests :=
  ⟨by decide, addAll_refilters_original_candidates cW [] [itW] podW [] nW (by decide)⟩

/-- C3: purchase-kind selection returns spot exactly when the requirement
set's recorded capacity types include spot and some candidate shape has a
spot offering in an allowed zone; in every other case it returns
on-demand; and it is a deterministic pure function of its two inputs. -/
theorem InstanceProvider.getCapacityType_spec (constraints : Constraints)
    (instanceTypes : List InstanceType) :
    (InstanceProvider.getCapacityType constraints instanceTypes = CapacityTypeSpot ↔
      ((reqValues constraints.requirements capacityTypeKey).contains CapacityTypeSpot = true ∧
        ∃ it ∈ instanceTypes, ∃ o ∈ it.offerings,
          o.capacityType = CapacityTypeSpot ∧
            (reqValues constraints.requirements zoneKey).contains o.zone = true)) ∧
    (InstanceProvider.getCapacityType constraints instanceTypes = CapacityTypeSpot ∨
      InstanceProvider.getCapacityType constraints instanceTypes = CapacityTypeOnDemand) ∧
    (∀ c2 its2, c2 = constraints → its2 = instanceTypes →
      InstanceProvider.getCapacityType c2 its2 =
        InstanceProvider.getCapacityType constraints instanceTypes) := by
  have hne : ¬ (CapacityTypeOnDemand = CapacityTypeSpot) := by decide
  refine ⟨?_, ?_, ?_⟩
  · unfold InstanceProvider.getCapacityType
    by_cases h1 : ((reqValues constraints.requirements capacityTypeKey).contains
        CapacityTypeSpot) = true
    · rw [if_pos h1]
      by_cases h2 : (instanceTypes.any (fun it => it.offerings.any (fun o =>
          (reqValues constraints.requirements zoneKey).contains o.zone &&
            o.capacityType == CapacityTypeSpot))) = true
      · rw [if_pos h2]
        constructor
        · intro _
          refine ⟨h1, ?_⟩
          simp only [List.any_eq_true, Bool.and_eq_true, beq_iff_eq] at h2
          rcases h2 with ⟨it, hits, o, ho, hz, hct⟩
          exact ⟨it, hits, o, ho, hct, hz⟩
        · intro _; rfl
      · rw [if_neg h2]
        constructor
        · intro hcontra; exact absurd hcontra hne
        · rintro ⟨-, it, hits, o, ho, hct, hz⟩
          exfalso
          apply h2
          simp only [List.any_eq_true, Bool.and_eq_true, beq_iff_eq]
          exact ⟨it, hits, o, ho, hz, hct⟩
    · rw [if_neg h1]
      constructor
      · intro hcontra; exact absurd hcontra hne
      · rintro ⟨hc, -⟩; exact absurd hc h1
  · unfold InstanceProvider.getCapacityType
    split
    · split
      · left; rfl
      · right; rfl
    · right; rfl
  · intro c2 its2 hc hi
    rw [hc, hi]

/-- Witness for C3: spot is selected for a spot-flexible requirement set
with a spot offering in an allowed zone, and the selection is repeatable. -/
theorem InstanceProvider.getCapacityType_spec_witness :
    InstanceProvider.getCapacityType cSpotW [itSpotW] = CapacityTypeSpot ∧
      InstanceProvider.getCapacityType cSpotW [itSpotW] =
        InstanceProvider.getCapacityType cSpotW [itSpotW] :=
  ⟨(InstanceProvider.getCapacityType_spec cSpotW [itSpotW]).1.mpr (by decide),
    (InstanceProvider.getCapacityType_spec cSpotW [itSpotW]).2.2 cSpotW [itSpotW] rfl rfl⟩

/-- C4: every override emitted by `getOverrides` names some shape of the
(already price/size-ordered) candidate list it was given and, when the
selected purchase kind is spot, carries a priority equal to that shape's
index in the list; under any other purchase kind it carries no priority. -/
theorem InstanceProvider.getOverrides_priority_is_index
    (instanceTypeOptions : List InstanceType) (subnets : List Subnet)
    (zones : List String) (capacityType : String) (ov : OverrideReq)
    (h : ov ∈ InstanceProvider.getOverrides instanceTypeOptions subnets zones capacityType) :
    ∃ i it, instanceTypeOptions.get? i = some it ∧ it.name = ov.instanceType ∧
      ov.priority = (if capacityType == CapacityTypeSpot then some i else none) := by
  rcases overridesFrom_spec instanceTypeOptions 0 ov h with ⟨j, it, hj, hname, hprio⟩
  exact ⟨j, it, hj, hname, by simpa using hprio⟩

/-- Witness for C4 at a concrete spot override. -/
theorem InstanceProvider.getOverrides_priority_is_index_witness :
    ovW ∈ InstanceProvider.getOverrides [itSpotW] [subnetW] ["A"] CapacityTypeSpot ∧
      ∃ i it, ([itSpotW] : List InstanceType).get? i = some it ∧
        it.name = ovW.instanceType ∧
        ovW.priority = (if CapacityTypeSpot == CapacityTypeSpot then some i else none) :=
  ⟨by decide,
    InstanceProvider.getOverrides_priority_is_index [itSpotW] [subnetW] ["A"]
      CapacityTypeSpot ovW (by decide)⟩

/-- C5 counterexample: the claim says `Create` matches the returned
description against the pre-truncation candidate list.  With 21 candidate
shapes and a description naming the 21st (`t20`), the name is present in
the pre-truncation list, yet the node-building step `Create` performs —
`instanceToNode` on `createCandidateList` — finds no match and panics
(modelled as `none`), so the match is not done against the pre-truncation
list. -/
theorem instanceToNode_pretruncation_counterexample :
    (∃ it ∈ its21W, it.name = instW.instanceType) ∧
      InstanceProvider.instanceToNode false instW
        (InstanceProvider.createCandidateList its21W) = none := by decide

/-- C5 (amended): `Create` matches the returned description's shape name
against the filtered, truncated candidate list it also launched with; a
successful match recovers that shape's resource table, and a failed match
is the fatal `panic` (modelled as `none`), never a normal return. -/
theorem InstanceProvider.instanceToNode_matches_truncated
    (useResourceName : Bool) (inst : EC2Instance) (its : List InstanceType) :
    (InstanceProvider.instanceToNode useResourceName inst
        (InstanceProvider.createCandidateList its) = none ↔
      ∀ it ∈ InstanceProvider.createCandidateList its, ¬ it.name = inst.instanceType) ∧
    (∀ nd, InstanceProvider.instanceToNode useResourceName inst
        (InstanceProvider.createCandidateList its) = some nd →
      ∃ it ∈ InstanceProvider.createCandidateList its, it.name = inst.instanceType ∧
        nd.allocatable = nodeResources it ∧ nd.capacity = nodeResources it) := by
  constructor
  · unfold InstanceProvider.instanceToNode
    rcases hf : (InstanceProvider.createCandidateList its).find?
        (fun it => it.name == inst.instanceType) with _ | it
    · simp only [hf]
      rw [List.find?_eq_none] at hf
      constructor
      · intro _ it hmem
        simpa using hf it hmem
      · intro _; trivial
    · simp only [hf]
      constructor
      · intro h; simp at h
      · intro hall
        exfalso
        have hmem := List.mem_of_find?_eq_some hf
        have hp := List.find?_some hf
        exact hall it hmem (by simpa using hp)
  · intro nd hnd
    unfold InstanceProvider.instanceToNode at hnd
    rcases hf : (InstanceProvider.createCandidateList its).find?
        (fun it => it.name == inst.instanceType) with _ | it
    · rw [hf] at hnd; simp at hnd
    · rw [hf] at hnd
      have hmem := List.mem_of_find?_eq_some hf
      have hp := List.find?_some hf
      cases hnd
      exact ⟨it, hmem, by simpa using hp, rfl, rfl⟩

/-- Witness for the amended C5 at a concrete successful match. -/
theorem InstanceProvider.instanceToNode_matches_truncated_witness :
    InstanceProvider.instanceToNode false inst0W
        (InstanceProvider.createCandidateList [mkPlainShape 0]) = some ndW ∧
      ∃ it ∈ InstanceProvider.createCandidateList [mkPlainShape 0],
        it.name = inst0W.instanceType ∧
        ndW.allocatable = nodeResources it ∧ ndW.capacity = nodeResources it :=
  ⟨by decide,
    (InstanceProvider.instanceToNode_matches_truncated false inst0W [mkPlainShape 0]).2
      ndW (by decide)⟩

/-- C6: whenever the fleet request is submitted, the unavailable-offering
cache gains exactly one (shape, zone, selected purchase-kind) entry per
override error carrying the insufficient-capacity code and none for other
codes — independently of whether an instance was also launched. -/
theorem InstanceProvider.launchInstance_harvests_capacity_errors
    (launchTemplates : List (String × List InstanceType)) (subnets : List Subnet)
    (constraints : Constraints) (instanceTypes : List InstanceType)
    (fleetOutput : CreateFleetOutput)
    (h : (InstanceProvider.launchInstance launchTemplates subnets constraints
        instanceTypes fleetOutput).fleetCalled = true) :
    (InstanceProvider.launchInstance launchTemplates subnets constraints
        instanceTypes fleetOutput).cacheWrites =
      (fleetOutput.errors.filter (fun e => e.errorCode == InsufficientCapacityErrorCode)).map
        (fun e => (e.instanceType, e.availabilityZone,
          InstanceProvider.getCapacityType constraints instanceTypes)) := by
  rcases hC : InstanceProvider.getLaunchTemplateConfigs launchTemplates subnets
      (reqValues constraints.requirements zoneKey)
      (InstanceProvider.getCapacityType constraints instanceTypes) with e | cfgs
  · exfalso
    unfold InstanceProvider.launchInstance at h
    dsimp only at h
    rw [hC] at h
    simp at h
  · unfold InstanceProvider.launchInstance
    dsimp only
    rw [hC]
    cases hF : firstFleetInstanceId fleetOutput <;>
      simpa using updateCache_eq_filter_map fleetOutput.errors _

/-- Witness for C6 on the spec's scenario: one insufficient-capacity error
for (shape1, A, spot) while an instance still launches — the cache gains
exactly that entry and the call still succeeds. -/
theorem InstanceProvider.launchInstance_harvests_capacity_errors_witness :
    (InstanceProvider.launchInstance ltW [subnetW] cSpotW [itSpotW] fleetOutW).fleetCalled
        = true ∧
      (InstanceProvider.launchInstance ltW [subnetW] cSpotW [itSpotW] fleetOutW).cacheWrites
        = [("shape1", "A", CapacityTypeSpot)] ∧
      (InstanceProvider.launchInstance ltW [subnetW] cSpotW [itSpotW] fleetOutW).instanceId
        = some "i-1" :=
  ⟨by decide,
    (InstanceProvider.launchInstance_harvests_capacity_errors ltW [subnetW] cSpotW
      [itSpotW] fleetOutW (by decide)).trans (by decide),
    by decide⟩

/-- C7: when every launch-template group yields zero overrides, the launch
fails with the no-offerings error (wrapped by the launch step) and the
fleet request is never submitted — no cache writes, no instance. -/
theorem InstanceProvider.launchInstance_fails_before_fleet_call
    (launchTemplates : List (String × List InstanceType)) (subnets : List Subnet)
    (constraints : Constraints) (instanceTypes : List InstanceType)
    (fleetOutput : CreateFleetOutput)
    (h : ∀ g ∈ launchTemplates,
      InstanceProvider.getOverrides g.2 subnets (reqValues constraints.requirements zoneKey)
        (InstanceProvider.getCapacityType constraints instanceTypes) = []) :
    InstanceProvider.launchInstance launchTemplates subnets constraints instanceTypes
        fleetOutput =
      { instanceId := none
        errMsg := some ("getting launch template configs, " ++ noOfferingsMsg)
        fleetCalled := false
        cacheWrites := [] } := by
  have hC : InstanceProvider.getLaunchTemplateConfigs launchTemplates subnets
      (reqValues constraints.requirements zoneKey)
      (InstanceProvider.getCapacityType constraints instanceTypes) =
        Except.error noOfferingsMsg := by
    unfold InstanceProvider.getLaunchTemplateConfigs
    have hnil : (launchTemplates.filterMap (fun g =>
        let c : FleetLaunchTemplateConfig :=
          { launchTemplateName := g.1
            overrides := InstanceProvider.getOverrides g.2 subnets
              (reqValues constraints.requirements zoneKey)
              (InstanceProvider.getCapacityType constraints instanceTypes) }
        if c.overrides.length > 0 then some c else none)) = [] := by
      rw [List.filterMap_eq_nil_iff]
      intro g hg
      simp only [h g hg]
      rfl
    rw [hnil]
    rfl
  unfold InstanceProvider.launchInstance
  dsimp only
  rw [hC]

/-- Witness for C7 with a launch-template group containing no shapes. -/
theorem InstanceProvider.launchInstance_fails_before_fleet_call_witness :
    (∀ g ∈ [("lt-1", ([] : List InstanceType))],
      InstanceProvider.getOverrides g.2 [subnetW] (reqValues cSpotW.requirements zoneKey)
        (InstanceProvider.getCapacityType cSpotW [itSpotW]) = []) ∧
      InstanceProvider.launchInstance [("lt-1", [])] [subnetW] cSpotW [itSpotW] fleetOutW =
        { instanceId := none
          errMsg := some ("getting launch template configs, " ++ noOfferingsMsg)
          fleetCalled := false
          cacheWrites := [] } :=
  ⟨by decide,
    InstanceProvider.launchInstance_fails_before_fleet_call [("lt-1", [])] [subnetW]
      cSpotW [itSpotW] fleetOutW (by decide)⟩

/-- C8: the accelerator preference filter returns exactly the subsequence
of accelerator-free shapes (in original order) when at least one exists,
and the input list unaltered when every shape is accelerator-equipped. -/
theorem InstanceProvider.filterInstanceTypes_prefers_generic
    (instanceTypes : List InstanceType) :
    ((∃ it ∈ instanceTypes, isGenericInstanceType it = true) →
      InstanceProvider.filterInstanceTypes instanceTypes =
        instanceTypes.filter isGenericInstanceType) ∧
    ((∀ it ∈ instanceTypes, isGenericInstanceType it = false) →
      InstanceProvider.filterInstanceTypes instanceTypes = instanceTypes) := by
  constructor
  · rintro ⟨it, hmem, hgen⟩
    unfold InstanceProvider.filterInstanceTypes
    have hne : (instanceTypes.filter isGenericInstanceType).length ≠ 0 := by
      intro h0
      rw [List.length_eq_zero] at h0
      have : it ∈ instanceTypes.filter isGenericInstanceType :=
        List.mem_filter.mpr ⟨hmem, hgen⟩
      rw [h0] at this
      simp at this
    rw [if_pos (by simpa [bne_iff_ne] using hne)]
  · intro hall
    unfold InstanceProvider.filterInstanceTypes
    have h0 : instanceTypes.filter isGenericInstanceType = [] := by
      rw [List.filter_eq_nil_iff]
      intro it hmem
      simp [hall it hmem]
    rw [h0]
    simp

/-- Witness for C8: one plain and one accelerator shape — only the plain
shape survives. -/
theorem InstanceProvider.filterInstanceTypes_prefers_generic_witness :
    (∃ it ∈ [itSpotW, itGpuW], isGenericInstanceType it = true) ∧
      InstanceProvider.filterInstanceTypes [itSpotW, itGpuW] = [itSpotW] :=
  ⟨by decide,
    ((InstanceProvider.filterInstanceTypes_prefers_generic [itSpotW, itGpuW]).1
      (by decide)).trans (by decide)⟩

/-- C9: `Terminate` parses the instance id as the fifth slash-delimited
segment of the provider identifier (`"aws:///us-east-1a/i-0123"` yields
`"i-0123"`); any identifier with fewer than five segments fails with the
malformed-identifier error before the termination API is called; and a
not-found response to the termination request is returned as success. -/
theorem InstanceProvider.Terminate_spec (providerID : String) (api : TerminateApiResult) :
    getInstanceID "aws:///us-east-1a/i-0123" = Except.ok "i-0123" ∧
    ((goSplit providerID '/').length < 5 →
      InstanceProvider.Terminate providerID api =
        (false, some ("getting instance ID for node, " ++
          ("parsing instance id " ++ providerID)))) ∧
    (¬ (goSplit providerID '/').length < 5 →
      InstanceProvider.Terminate providerID TerminateApiResult.notFound = (true, none)) := by
  refine ⟨by rfl, ?_, ?_⟩
  · intro hlen
    unfold InstanceProvider.Terminate getInstanceID
    dsimp only
    rw [if_pos hlen]
  · intro hlen
    unfold InstanceProvider.Terminate getInstanceID
    dsimp only
    rw [if_neg hlen]

/-- Witness for C9 at the spec's two concrete identifiers. -/
theorem InstanceProvider.Terminate_spec_witness :
    (goSplit "garbage" '/').length < 5 ∧
      InstanceProvider.Terminate "garbage" TerminateApiResult.success =
        (false, some ("getting instance ID for node, " ++
          ("parsing instance id " ++ "garbage"))) ∧
      InstanceProvider.Terminate "aws:///us-east-1a/i-0123" TerminateApiResult.notFound =
        (true, none) :=
  ⟨by decide,
    (InstanceProvider.Terminate_spec "garbage" TerminateApiResult.success).2.1 (by decide),
    (InstanceProvider.Terminate_spec "aws:///us-east-1a/i-0123"
      TerminateApiResult.success).2.2 (by decide)⟩

/-- C10: whenever the fleet response contains no launched instance id, the
launch step returns no instance id together with a non-nil error — even
when the per-override error list is empty, because the aggregated fleet
error is a definite (non-nil) error for every input list; a nil id with a
nil error is impossible. -/
theorem InstanceProvider.launchInstance_no_id_never_silent
    (launchTemplates : List (String × List InstanceType)) (subnets : List Subnet)
    (constraints : Constraints) (instanceTypes : List InstanceType)
    (fleetOutput : CreateFleetOutput)
    (h : firstFleetInstanceId fleetOutput = none) :
    (InstanceProvider.launchInstance launchTemplates subnets constraints instanceTypes
        fleetOutput).instanceId = none ∧
    ((InstanceProvider.launchInstance launchTemplates subnets constraints instanceTypes
        fleetOutput).errMsg).isSome = true ∧
    ((InstanceProvider.launchInstance launchTemplates subnets constraints instanceTypes
        fleetOutput).fleetCalled = true →
      (InstanceProvider.launchInstance launchTemplates subnets constraints instanceTypes
        fleetOutput).errMsg = some (combineFleetErrors fleetOutput.errors)) := by
  rcases hC : InstanceProvider.getLaunchTemplateConfigs launchTemplates subnets
      (reqValues constraints.requirements zoneKey)
      (InstanceProvider.getCapacityType constraints instanceTypes) with e | cfgs
  · unfold InstanceProvider.launchInstance
    dsimp only
    rw [hC]
    refine ⟨rfl, rfl, ?_⟩
    intro hcalled
    simp at hcalled
  · unfold InstanceProvider.launchInstance
    dsimp only
    rw [hC, h]
    exact ⟨rfl, rfl, fun _ => rfl⟩

/-- Witness for C10 on a fleet response with no instances and an empty
error list. -/
theorem InstanceProvider.launchInstance_no_id_never_silent_witness :
    (InstanceProvider.launchInstance ltW [subnetW] cSpotW [itSpotW]
        fleetOutEmptyW).instanceId = none ∧
      ((InstanceProvider.launchInstance ltW [subnetW] cSpotW [itSpotW]
        fleetOutEmptyW).errMsg).isSome = true ∧
      ((InstanceProvider.launchInstance ltW [subnetW] cSpotW [itSpotW]
          fleetOutEmptyW).fleetCalled = true →
        (InstanceProvider.launchInstance ltW [subnetW] cSpotW [itSpotW]
          fleetOutEmptyW).errMsg = some (combineFleetErrors fleetOutEmptyW.errors)) :=
  InstanceProvider.launchInstance_no_id_never_silent ltW [subnetW] cSpotW [itSpotW]
    fleetOutEmptyW (by decide)

end Karpenter
